import Mathlib

/-!
Verification development for the etheremon repository.

Part 1 embeds the Solidity `EncounterSystem` contract (src/unnamed/part_001):
MUD tables are modelled as maps from entity keys (bytes32, modelled as Nat)
to optional records; `get` on an absent record yields the Solidity default
value, `deleteRecord` removes the record.  Solidity ≥0.8 checked arithmetic
is modelled explicitly: unsigned subtraction reverts on underflow, and
reading `monsters[0]` of an empty memory array reverts with an
out-of-bounds panic.  A reverting call leaves the chain state unchanged
(EVM revert semantics), so reverts are modelled by `Except.error` carrying
no state.

Part 2 embeds the TypeScript client Action Layer
(src/packages/client/src/EncounterScreen.tsx, `setup`): the overridable
components, `wrapPosition` (JavaScript `%` is truncating remainder, hence
`Int.tmod`), `isObstructed`, `moveTo`, `spawn` and the client-side
`throwBall`.  The submission round trip (`worldSend` plus
`awaitStreamValue`) is abstracted by an oracle outcome parameter; the
`no signer` throw of `bindFastTxExecute` is kept explicit since it is
decided locally before any submission.
-/

/-- Errors with which a call to the `EncounterSystem` contract can revert:
the `require` message of `throwBall`, the array out-of-bounds panic (0x32)
and the checked-arithmetic underflow panic (0x11). -/
inductive SysErr where
  | notInEncounter
  | outOfBounds
  | underflow
deriving DecidableEq, Repr

/-- Authoritative chain state: the MUD tables used by `EncounterSystem`.
`encounter` maps a player key to its record `(actionCount, monsters)`,
`ownedBy` maps a monster key to its owner, `monster` maps a monster key to
its monster-type record, `health` and `strength` are `uint32` tables whose
absent records read as the default 0. -/
structure ChainState where
  encounter : Nat → Option (Nat × List Nat)
  ownedBy : Nat → Option Nat
  monster : Nat → Option Nat
  health : Nat → Nat
  strength : Nat → Nat

/-- `EncounterSystem.throwBall`.  `h` is the keccak hash, uninterpreted,
applied to `(player, monster, actionCount, block.difficulty)`; `entropy`
is `block.difficulty`.  `Encounter.get` on an absent record returns the
default `(0, [])`. -/
def throwBall (h : Nat → Nat → Nat → Nat → Nat) (entropy player : Nat)
    (s : ChainState) : Except SysErr ChainState :=
  let rec0 := (s.encounter player).getD (0, [])
  let actionCount := rec0.1
  let monsters := rec0.2
  if actionCount = 0 then
    .error .notInEncounter
  else
    match monsters with
    | [] => .error .outOfBounds
    | monster :: _ =>
      let rand := h player monster actionCount entropy
      if rand % 2 = 0 then
        .ok { s with
          ownedBy := fun m => if m = monster then some player else s.ownedBy m,
          encounter := fun q => if q = player then none else s.encounter q }
      else if actionCount > 2 then
        .ok { s with
          encounter := fun q => if q = player then none else s.encounter q,
          monster := fun m => if m = monster then none else s.monster m }
      else
        .ok { s with
          encounter := fun q =>
            if q = player then some (actionCount + 1, monsters)
            else s.encounter q }

/-- `EncounterSystem.flee`: unconditionally deletes the caller's encounter
record.  `deleteRecord` never reverts, so `flee` is total. -/
def flee (player : Nat) (s : ChainState) : ChainState :=
  { s with encounter := fun q => if q = player then none else s.encounter q }

/-- `EncounterSystem.attack`: reads the caller's encounter record with no
guard, indexes `monsters[0]` (panics when the list is empty), and sets the
monster's health to `monsterHealth - playerDamage` with checked `uint32`
subtraction (reverts on underflow). -/
def attack (player : Nat) (s : ChainState) : Except SysErr ChainState :=
  let rec0 := (s.encounter player).getD (0, [])
  let monsters := rec0.2
  match monsters with
  | [] => .error .outOfBounds
  | monster :: _ =>
    let playerDamage := s.strength player
    let monsterHealth := s.health monster
    if playerDamage ≤ monsterHealth then
      .ok { s with
        health := fun m =>
          if m = monster then monsterHealth - playerDamage else s.health m }
    else
      .error .underflow

/-- Which overridable component an override patches.  `setup` wraps exactly
`Position`, `Player`, `Health` and `Strength` in `overridableComponent`. -/
inductive Comp where
  | position
  | player
  | health
  | strength
deriving DecidableEq, Repr

/-- The value carried by an override: a position `{x, y}` or a boolean
`{value}` (for the `Player` component). -/
inductive OvValue where
  | pos (x y : Int)
  | flag (b : Bool)
deriving DecidableEq, Repr

/-- One speculative override `{entity, component, value}` as passed to
`addOverride`. -/
structure OverrideEntry where
  entity : Nat
  component : Comp
  value : OvValue
deriving DecidableEq, Repr

/-- The live override list, most recently added first, each entry keyed by
its `uuid` (modelled as a Nat drawn from a fresh-id counter). -/
abbrev Overrides := List (Nat × OverrideEntry)

/-- Client-visible state: the Replica Store's authoritative component
values (`entities` lists the known entity indices for `runQuery`), the
singleton `MapConfig`, the local player's entity index, and whether a
signer with a JSON-RPC provider is bound (`fastTxExecutor` non-null). -/
structure Client where
  entities : List Nat
  obstruction : Nat → Bool
  position : Nat → Option (Int × Int)
  playerComp : Nat → Option Bool
  encounterComp : Nat → Option (List Nat)
  ownedByComp : Nat → Option Nat
  mapConfig : Option (Int × Int)
  playerEntity : Option Nat
  hasSigner : Bool

/-- Effective (override-aware) read of the overridable `Position`
component: the most recently added live override targeting the entity
wins, else the authoritative value. -/
def effPosition (c : Client) (ovs : Overrides) (e : Nat) : Option (Int × Int) :=
  match ovs.find? (fun en => en.2.entity = e ∧ en.2.component = .position) with
  | some (_, en) =>
    match en.value with
    | .pos x y => some (x, y)
    | .flag _ => none
  | none => c.position e

/-- Effective (override-aware) read of the overridable `Player`
component. -/
def effPlayer (c : Client) (ovs : Overrides) (e : Nat) : Option Bool :=
  match ovs.find? (fun en => en.2.entity = e ∧ en.2.component = .player) with
  | some (_, en) =>
    match en.value with
    | .flag b => some b
    | .pos _ _ => none
  | none => c.playerComp e

/-- `wrapPosition` body once `mapConfig` is loaded: JavaScript `%` is the
truncating remainder, so `(x + width) % width` is `Int.tmod`. -/
def wrapPos (w h x y : Int) : Int × Int :=
  ((x + w).tmod w, (y + h).tmod h)

/-- `isObstructed`: `runQuery([Has(Obstruction), HasValue(Position, {x,y})])`
is non-empty; `Position` here is the overridable component. -/
def isObstructed (c : Client) (ovs : Overrides) (x y : Int) : Bool :=
  c.entities.any (fun e => c.obstruction e && (effPosition c ovs e == some (x, y)))

/-- Errors thrown by an Action Layer call: the explicit `throw new Error`
sites of `moveTo`, `spawn`, `throwBall`, `wrapPosition` and
`bindFastTxExecute`, plus an opaque submission-level failure (ledger
rejection or any exception out of `fastTxExecute`/`awaitStreamValue`). -/
inductive ClientErr where
  | noPlayer
  | noMapConfig
  | alreadySpawned
  | noEncounter
  | noSigner
  | submitFailed
deriving DecidableEq, Repr

/-- Observable outcome of one Action Layer call: the live overrides when
the call settles, the next fresh override id, whether a submission was
handed to the transaction executor, the calldata passed to `worldSend`
(when a submission happened), the Replica Store view the call itself
produced (the call never writes it), and the returned/thrown result. -/
structure ActionOut where
  overrides : Overrides
  nextId : Nat
  submitted : Bool
  calldata : Option (Int × Int)
  client : Client
  result : Except ClientErr Unit

/-- `worldSend = bindFastTxExecute(worldContract)`: throws `no signer`
when no fast tx executor is bound, otherwise the submission round trip
resolves to the oracle outcome `so`. -/
def worldSend (c : Client) (so : Except ClientErr Unit) : Except ClientErr Unit :=
  if c.hasSigner then so else .error .noSigner

/-- The `moveTo` action verb.  `so` is the oracle outcome of
`worldSend("move", [x, y])` followed by `awaitStreamValue`.  The order of
checks, the silent (`console.warn` + `return`) rejections, the speculative
override on `Position`, the original (unwrapped) calldata, and the
`finally` release of the override are as in the source. -/
def moveTo (c : Client) (ovs : Overrides) (nid : Nat)
    (so : Except ClientErr Unit) (x y : Int) : ActionOut :=
  match c.playerEntity with
  | none => ⟨ovs, nid, false, none, c, .error .noPlayer⟩
  | some player =>
    match c.mapConfig with
    | none => ⟨ovs, nid, false, none, c, .error .noMapConfig⟩
    | some (w, h) =>
      let wrapped := wrapPos w h x y
      if isObstructed c ovs wrapped.1 wrapped.2 then
        ⟨ovs, nid, false, none, c, .ok ()⟩
      else if (c.encounterComp player).isSome then
        ⟨ovs, nid, false, none, c, .ok ()⟩
      else
        let ovs1 : Overrides :=
          (nid, ⟨player, .position, .pos wrapped.1 wrapped.2⟩) :: ovs
        let res := worldSend c so
        ⟨ovs1.filter (fun en => en.1 ≠ nid), nid + 1, c.hasSigner,
          if c.hasSigner then some (x, y) else none, c, res⟩

/-- The `spawn` action verb.  Checks player, then `canSpawn` against the
effective (overridable) `Player` component, wraps, checks obstruction,
creates the `Position` then the `Player` override, submits the wrapped
coordinates, and releases both overrides in `finally`. -/
def spawn (c : Client) (ovs : Overrides) (nid : Nat)
    (so : Except ClientErr Unit) (x y : Int) : ActionOut :=
  match c.playerEntity with
  | none => ⟨ovs, nid, false, none, c, .error .noPlayer⟩
  | some player =>
    if effPlayer c ovs player = some true then
      ⟨ovs, nid, false, none, c, .error .alreadySpawned⟩
    else
      match c.mapConfig with
      | none => ⟨ovs, nid, false, none, c, .error .noMapConfig⟩
      | some (w, h) =>
        let wrapped := wrapPos w h x y
        if isObstructed c ovs wrapped.1 wrapped.2 then
          ⟨ovs, nid, false, none, c, .ok ()⟩
        else
          let ovs1 : Overrides :=
            (nid, ⟨player, .position, .pos wrapped.1 wrapped.2⟩) :: ovs
          let ovs2 : Overrides :=
            (nid + 1, ⟨player, .player, .flag true⟩) :: ovs1
          let res := worldSend c so
          ⟨(ovs2.filter (fun en => en.1 ≠ nid)).filter (fun en => en.1 ≠ nid + 1),
            nid + 2, c.hasSigner,
            if c.hasSigner then some wrapped else none, c, res⟩

/-- Result vocabulary of the client-side `throwBall`. -/
inductive ThrowStatus where
  | caught
  | fled
  | miss
deriving DecidableEq, Repr

/-- The client-side `throwBall`: precondition checks on player and
encounter presence, submission, then outcome classification against the
post-confirmation Replica Store `cPost` (pre-read monster list, ownership
then encounter presence).  It creates no override. -/
def clientThrowBall (c cPost : Client) (so : Except ClientErr Unit) :
    Bool × Except ClientErr ThrowStatus :=
  match c.playerEntity with
  | none => (false, .error .noPlayer)
  | some player =>
    match c.encounterComp player with
    | none => (false, .error .noEncounter)
    | some monsters =>
      match worldSend c so with
      | .error e => (c.hasSigner, .error e)
      | .ok _ =>
        let hasCaught := monsters.any (fun m => cPost.ownedByComp m == some player)
        if hasCaught then (c.hasSigner, .ok .caught)
        else if (cPost.encounterComp player).isNone then (c.hasSigner, .ok .fled)
        else (c.hasSigner, .ok .miss)

/-- Modelled from the spec: the ledger-side move system is not under
`src/` (only its client caller is).  Per the spec, `moveTo` "wraps target
coordinates into a toroidal bounded space", and the client comments that
the system "wraps for us" on the submitted original coordinates; so the
modelled ledger move sets the player's authoritative position to the
wrapped target. -/
def ledgerMove (w h : Int) (x y : Int) : Int × Int :=
  wrapPos w h x y

/-- The authoritative position a `moveTo` call results in: the ledger
applies the modelled move to the submitted calldata; with no submission
the position stays `p0`. -/
def resultingPos (w h : Int) (cal : Option (Int × Int)) (p0 : Int × Int) :
    Int × Int :=
  match cal with
  | some (x, y) => ledgerMove w h x y
  | none => p0

/-- A sample chain state: player 1 engaged with monster 5 at
`actionCount = 1`; the monster has 10 health, the player 4 strength. -/
def sampleChain : ChainState where
  encounter := fun q => if q = 1 then some (1, [5]) else none
  ownedBy := fun _ => none
  monster := fun m => if m = 5 then some 3 else none
  health := fun m => if m = 5 then 10 else 0
  strength := fun p => if p = 1 then 4 else 0

/-- A chain state where the acting player's strength (10) exceeds the
encountered monster's health (3). -/
def lowHealthChain : ChainState where
  encounter := fun q => if q = 1 then some (1, [5]) else none
  ownedBy := fun _ => none
  monster := fun m => if m = 5 then some 2 else none
  health := fun m => if m = 5 then 3 else 0
  strength := fun p => if p = 1 then 10 else 0

/-- A hash function whose value is always even (for witnesses). -/
def hEven : Nat → Nat → Nat → Nat → Nat := fun _ _ _ _ => 0

/-- A hash function whose value is always odd (for witnesses). -/
def hOdd : Nat → Nat → Nat → Nat → Nat := fun _ _ _ _ => 1

/-- C1: a `throwBall` call by a player engaged with monster list
`m :: rest` at `actionCount ≥ 1` resolves by the parity of the derived
hash value: even — the monster becomes owned by the player and the
player's encounter record is deleted (capture); odd with
`actionCount > 2` — the encounter record and the monster record are both
deleted (escape); odd with `actionCount ≤ 2` — the encounter remains with
`actionCount` incremented by exactly 1 and the monster list unchanged
(miss). -/
theorem throwBall_resolution (h : Nat → Nat → Nat → Nat → Nat)
    (entropy player ac m : Nat) (rest : List Nat) (s : ChainState)
    (henc : s.encounter player = some (ac, m :: rest)) (hac : 1 ≤ ac) :
    (h player m ac entropy % 2 = 0 →
      ∃ s2, throwBall h entropy player s = .ok s2 ∧
        s2.ownedBy m = some player ∧ s2.encounter player = none) ∧
    (h player m ac entropy % 2 ≠ 0 → 2 < ac →
      ∃ s2, throwBall h entropy player s = .ok s2 ∧
        s2.encounter player = none ∧ s2.monster m = none) ∧
    (h player m ac entropy % 2 ≠ 0 → ac ≤ 2 →
      ∃ s2, throwBall h entropy player s = .ok s2 ∧
        s2.encounter player = some (ac + 1, m :: rest)) := by
  have hac0 : ¬ ac = 0 := by omega
  refine ⟨fun hpar => ?_, fun hpar hgt => ?_, fun hpar hle => ?_⟩
  · refine ⟨{ s with
        ownedBy := fun mm => if mm = m then some player else s.ownedBy mm,
        encounter := fun q => if q = player then none else s.encounter q },
      ?_, ?_, ?_⟩
    · simp [throwBall, henc, hac0, hpar]
    · simp
    · simp
  · refine ⟨{ s with
        encounter := fun q => if q = player then none else s.encounter q,
        monster := fun mm => if mm = m then none else s.monster mm },
      ?_, ?_, ?_⟩
    · simp [throwBall, henc, hac0, hpar, hgt]
    · simp
    · simp
  · have hngt : ¬ 2 < ac := by omega
    refine ⟨{ s with
        encounter := fun q =>
          if q = player then some (ac + 1, m :: rest) else s.encounter q },
      ?_, ?_⟩
    · simp [throwBall, henc, hac0, hpar, hngt]
    · simp

/-- C1 witness: with the even hash, player 1 at `actionCount = 1` in
`sampleChain` captures monster 5. -/
theorem throwBall_resolution_witness :
    ∃ s2, throwBall hEven 0 1 sampleChain = .ok s2 ∧
      s2.ownedBy 5 = some 1 ∧ s2.encounter 1 = none :=
  (throwBall_resolution hEven 0 1 1 5 [] sampleChain rfl (by decide)).1
    (by decide)

/-- C3 counterexample: in `lowHealthChain` the acting player's strength
(10) exceeds the monster's health (3); `attack` does not complete — the
checked `uint32` subtraction underflows and the call reverts, so the
claimed "health may go negative / attack completes" behavior is false. -/
theorem attack_negative_health_cex :
    lowHealthChain.strength 1 = 10 ∧ lowHealthChain.health 5 = 3 ∧
    attack 1 lowHealthChain = .error .underflow :=
  ⟨rfl, rfl, rfl⟩

/-- C3 amended: `attack` reduces the target monster's health by the acting
player's strength using checked unsigned (`uint32`) arithmetic: when
strength ≤ health the resulting health is exactly `health - strength`;
when strength exceeds the current health the subtraction underflows and
the call reverts — health never goes negative. -/
theorem attack_checked_sub (player ac m : Nat) (rest : List Nat)
    (s : ChainState) (henc : s.encounter player = some (ac, m :: rest)) :
    (s.strength player ≤ s.health m →
      ∃ s2, attack player s = .ok s2 ∧
        s2.health m = s.health m - s.strength player) ∧
    (s.health m < s.strength player →
      attack player s = .error .underflow) := by
  constructor
  · intro hle
    refine ⟨{ s with
        health := fun mm =>
          if mm = m then s.health m - s.strength player else s.health mm },
      ?_, ?_⟩
    · simp [attack, henc, hle]
    · simp
  · intro hlt
    have : ¬ s.strength player ≤ s.health m := by omega
    simp [attack, henc, this]

/-- C3 amended witness: in `sampleChain` (strength 4 ≤ health 10) the
attack lands and leaves the monster at health 6. -/
theorem attack_checked_sub_witness :
    ∃ s2, attack 1 sampleChain = .ok s2 ∧
      s2.health 5 = sampleChain.health 5 - sampleChain.strength 1 :=
  (attack_checked_sub 1 1 5 [] sampleChain rfl).1 (by decide)

/-- C5: `throwBall` reverts with the `not in this encounter` error exactly
when the caller's encounter record is absent or has `actionCount = 0`
(the absent record reads as the default `actionCount = 0`); a revert
leaves the chain state unchanged by EVM semantics, and when
`actionCount ≠ 0` the call proceeds past the guard to resolution. -/
theorem throwBall_guard (h : Nat → Nat → Nat → Nat → Nat)
    (entropy player : Nat) (s : ChainState) :
    throwBall h entropy player s = .error .notInEncounter ↔
      (s.encounter player = none ∨
        ∃ ms, s.encounter player = some (0, ms)) := by
  cases henc : s.encounter player with
  | none => simp [throwBall, henc]
  | some rec1 =>
    obtain ⟨ac, ms⟩ := rec1
    by_cases hac : ac = 0
    · subst hac
      simp [throwBall, henc]
    · cases ms with
      | nil => simp [throwBall, henc, hac]
      | cons m rest =>
        by_cases hpar : h player m ac entropy % 2 = 0
        · simp [throwBall, henc, hac, hpar]
        · by_cases hgt : ac > 2
          · simp [throwBall, henc, hac, hpar, hgt]
          · simp [throwBall, henc, hac, hpar, hgt]

/-- C8: `flee` never reverts (it is a total function of the state) and
unconditionally leaves the caller with no encounter record; a second
`flee` in a row also never reverts, also ends with no encounter record,
and is a no-op (the state after two calls equals the state after one). -/
theorem flee_idempotent (player : Nat) (s : ChainState) :
    (flee player s).encounter player = none ∧
    (flee player (flee player s)).encounter player = none ∧
    flee player (flee player s) = flee player s := by
  refine ⟨by simp [flee], by simp [flee], ?_⟩
  show ChainState.mk _ _ _ _ _ = ChainState.mk _ _ _ _ _
  congr 1
  funext q
  by_cases hq : q = player <;> simp [flee, hq]

/-- C9: `attack` has no encounter-membership guard — for a player with no
encounter record it reads the default empty monster list and reverts with
the out-of-bounds panic of `monsters[0]`, not with the dedicated
`not in this encounter` error that guards `throwBall`. -/
theorem attack_no_guard (player : Nat) (s : ChainState)
    (henc : s.encounter player = none) :
    attack player s = .error .outOfBounds ∧
    attack player s ≠ .error .notInEncounter := by
  have : attack player s = .error .outOfBounds := by simp [attack, henc]
  exact ⟨this, by simp [this]⟩

/-- C9 witness: a player (2) with no encounter record in `sampleChain`. -/
theorem attack_no_guard_witness :
    attack 2 sampleChain = .error .outOfBounds ∧
    attack 2 sampleChain ≠ .error .notInEncounter :=
  attack_no_guard 2 sampleChain rfl

/-- C10: `flee` deletes only the calling player's encounter record: the
monster table, health, strength and ownership tables are unchanged (so
fleeing never destroys a monster the way an escape outcome of `throwBall`
does), every other player's encounter record is unchanged, and the caller
ends with no encounter record. -/
theorem flee_frame (player : Nat) (s : ChainState) :
    (flee player s).monster = s.monster ∧
    (flee player s).health = s.health ∧
    (flee player s).strength = s.strength ∧
    (flee player s).ownedBy = s.ownedBy ∧
    (flee player s).encounter player = none ∧
    ∀ q, q ≠ player → (flee player s).encounter q = s.encounter q := by
  refine ⟨rfl, rfl, rfl, rfl, by simp [flee], fun q hq => by simp [flee, hq]⟩

/-- C10 witness: player 1 flees `sampleChain`; monster 5's record, its
health, and player 2's encounter record are untouched. -/
theorem flee_frame_witness :
    (flee 1 sampleChain).monster = sampleChain.monster ∧
    (flee 1 sampleChain).encounter 2 = sampleChain.encounter 2 :=
  ⟨(flee_frame 1 sampleChain).1,
    (flee_frame 1 sampleChain).2.2.2.2.2 2 (by decide)⟩

/-- Removing an override id that no live override carries is a no-op. -/
theorem filter_ne_id (ovs : Overrides) (k : Nat)
    (hk : ∀ en ∈ ovs, en.1 ≠ k) :
    ovs.filter (fun en => en.1 ≠ k) = ovs := by
  rw [List.filter_eq_self]
  intro a ha
  simpa using hk a ha

/-- A client with a bound signer and player entity 1, a 10×10 map, one
obstruction entity 7 standing at (5, 5), and no encounter. -/
def cOpen : Client where
  entities := [7]
  obstruction := fun e => e == 7
  position := fun e => if e = 7 then some (5, 5) else
    if e = 1 then some (1, 1) else none
  playerComp := fun _ => none
  encounterComp := fun _ => none
  ownedByComp := fun _ => none
  mapConfig := some (10, 10)
  playerEntity := some 1
  hasSigner := true

/-- C2: override hygiene — for every `moveTo` and every `spawn` call, on
every outcome of the submission oracle (confirmation, ledger rejection,
or an exception thrown after override creation, all folded into `so`),
the live override set when the call settles equals the set before the
call, provided the fresh-id counter is ahead of every live override id. -/
theorem override_hygiene (c : Client) (ovs : Overrides) (nid : Nat)
    (so : Except ClientErr Unit) (x y : Int)
    (hfresh : ∀ en ∈ ovs, en.1 < nid) :
    (moveTo c ovs nid so x y).overrides = ovs ∧
    (spawn c ovs nid so x y).overrides = ovs := by
  have h0 : ovs.filter (fun en => en.1 ≠ nid) = ovs :=
    filter_ne_id ovs nid (fun en hen => by have := hfresh en hen; omega)
  have h1 : ovs.filter (fun en => en.1 ≠ nid + 1) = ovs :=
    filter_ne_id ovs (nid + 1) (fun en hen => by have := hfresh en hen; omega)
  have hne : (nid + 1 : Nat) ≠ nid := by omega
  constructor
  · unfold moveTo
    cases hpe : c.playerEntity with
    | none => rfl
    | some player =>
      cases hmc : c.mapConfig with
      | none => rfl
      | some wh =>
        obtain ⟨w, h⟩ := wh
        by_cases hob :
            isObstructed c ovs (wrapPos w h x y).1 (wrapPos w h x y).2 = true
        · simp [hob]
        · simp only [Bool.not_eq_true] at hob
          by_cases henc : (c.encounterComp player).isSome = true
          · simp [hob, henc]
          · simp only [Bool.not_eq_true] at henc
            simp [hob, henc, List.filter_cons, h0]
            intro a b hab
            have := hfresh (a, b) hab
            omega
  · unfold spawn
    cases hpe : c.playerEntity with
    | none => rfl
    | some player =>
      by_cases hsp : effPlayer c ovs player = some true
      · simp [hsp]
      · cases hmc : c.mapConfig with
        | none => simp [hsp]
        | some wh =>
          obtain ⟨w, h⟩ := wh
          by_cases hob :
              isObstructed c ovs (wrapPos w h x y).1 (wrapPos w h x y).2 = true
          · simp [hsp, hob]
          · simp only [Bool.not_eq_true] at hob
            simp [hsp, hob, List.filter_cons, hne, h0, h1]
            intro a b hab
            have := hfresh (a, b) hab
            omega

/-- C2 witness: a clean `moveTo` and `spawn` by player 1 in `cOpen` leave
the (empty) override set empty. -/
theorem override_hygiene_witness :
    (moveTo cOpen [] 0 (.ok ()) 0 0).overrides = [] ∧
    (spawn cOpen [] 0 (.ok ()) 0 0).overrides = [] :=
  override_hygiene cOpen [] 0 (.ok ()) 0 0 (by simp)

/-- Like `cOpen`, but the obstruction entity 7 stands at (0, 0), the
target of the sample move. -/
def cObst : Client where
  entities := [7]
  obstruction := fun e => e == 7
  position := fun e => if e = 7 then some (0, 0) else
    if e = 1 then some (1, 1) else none
  playerComp := fun _ => none
  encounterComp := fun _ => none
  ownedByComp := fun _ => none
  mapConfig := some (10, 10)
  playerEntity := some 1
  hasSigner := true

/-- Like `cOpen`, but with no signer bound (`fastTxExecutor` null). -/
def cNoSigner : Client where
  entities := [7]
  obstruction := fun e => e == 7
  position := fun e => if e = 7 then some (5, 5) else
    if e = 1 then some (1, 1) else none
  playerComp := fun _ => none
  encounterComp := fun _ => none
  ownedByComp := fun _ => none
  mapConfig := some (10, 10)
  playerEntity := some 1
  hasSigner := false

/-- C4 counterexample: three concrete runs on which the claim fails.
`moveTo` and `spawn` onto the obstructed cell (0, 0) of `cObst` are
precondition violations (obstructed target), yet both calls resolve with
`.ok ()` — a silent `console.warn` early return — instead of surfacing a
rejection.  And a `moveTo` on `cNoSigner` (no signer bound) surfaces its
`no signer` rejection only at submission time, after an override was
created: the fresh-id counter advanced from 0 to 1, i.e. a `uuid` was
consumed by `addOverride` before the error (the override is released
again, so the final set is empty). -/
theorem precondition_rejection_cex :
    isObstructed cObst [] 0 0 = true ∧
    (moveTo cObst [] 0 (.ok ()) 0 0).result = .ok () ∧
    (moveTo cObst [] 0 (.ok ()) 0 0).submitted = false ∧
    (spawn cObst [] 0 (.ok ()) 0 0).result = .ok () ∧
    (spawn cObst [] 0 (.ok ()) 0 0).submitted = false ∧
    (moveTo cNoSigner [] 0 (.ok ()) 0 0).result = .error .noSigner ∧
    (moveTo cNoSigner [] 0 (.ok ()) 0 0).submitted = false ∧
    (moveTo cNoSigner [] 0 (.ok ()) 0 0).nextId = 1 ∧
    (moveTo cNoSigner [] 0 (.ok ()) 0 0).overrides = [] := by
  refine ⟨by decide, ?_, ?_, ?_, ?_, ?_, ?_, ?_, ?_⟩ <;> rfl

/-- C4 amended: precondition violations detected before override creation
(no player for `moveTo`/`spawn`/`throwBall`, already spawned for `spawn`,
no encounter for `throwBall`) are surfaced immediately as rejections with
no override created and no submission attempted.  An obstructed target
surfaces no error: both `moveTo` and `spawn` return silently (a console
warning, not a rejection), likewise with no override created and no
submission attempted.  The no-signer violation is surfaced as a rejection
by `moveTo`, `spawn` and `throwBall`, but only at submission time — in
`moveTo` and `spawn` after the speculative overrides were created (the
fresh-id counter advances) — with no submission attempted and the
overrides released before the error propagates, leaving the override set
unchanged. -/
theorem precondition_paths (c cPost : Client) (ovs : Overrides) (nid : Nat)
    (so : Except ClientErr Unit) (x y : Int) :
    (c.playerEntity = none →
      moveTo c ovs nid so x y = ⟨ovs, nid, false, none, c, .error .noPlayer⟩ ∧
      spawn c ovs nid so x y = ⟨ovs, nid, false, none, c, .error .noPlayer⟩ ∧
      clientThrowBall c cPost so = (false, .error .noPlayer)) ∧
    (∀ player, c.playerEntity = some player →
      effPlayer c ovs player = some true →
      spawn c ovs nid so x y =
        ⟨ovs, nid, false, none, c, .error .alreadySpawned⟩) ∧
    (∀ player, c.playerEntity = some player → c.encounterComp player = none →
      clientThrowBall c cPost so = (false, .error .noEncounter)) ∧
    (∀ player w h, c.playerEntity = some player → c.mapConfig = some (w, h) →
      isObstructed c ovs (wrapPos w h x y).1 (wrapPos w h x y).2 = true →
      moveTo c ovs nid so x y = ⟨ovs, nid, false, none, c, .ok ()⟩) ∧
    (∀ player w h, c.playerEntity = some player →
      effPlayer c ovs player ≠ some true → c.mapConfig = some (w, h) →
      isObstructed c ovs (wrapPos w h x y).1 (wrapPos w h x y).2 = true →
      spawn c ovs nid so x y = ⟨ovs, nid, false, none, c, .ok ()⟩) ∧
    (∀ player w h, c.hasSigner = false → (∀ en ∈ ovs, en.1 < nid) →
      c.playerEntity = some player → c.mapConfig = some (w, h) →
      isObstructed c ovs (wrapPos w h x y).1 (wrapPos w h x y).2 = false →
      c.encounterComp player = none →
      moveTo c ovs nid so x y =
        ⟨ovs, nid + 1, false, none, c, .error .noSigner⟩) ∧
    (∀ player w h, c.hasSigner = false → (∀ en ∈ ovs, en.1 < nid) →
      c.playerEntity = some player →
      effPlayer c ovs player ≠ some true → c.mapConfig = some (w, h) →
      isObstructed c ovs (wrapPos w h x y).1 (wrapPos w h x y).2 = false →
      spawn c ovs nid so x y =
        ⟨ovs, nid + 2, false, none, c, .error .noSigner⟩) ∧
    (∀ player ms, c.hasSigner = false → c.playerEntity = some player →
      c.encounterComp player = some ms →
      clientThrowBall c cPost so = (false, .error .noSigner)) := by
  refine ⟨fun hpe => ?_, fun player hpe hsp => ?_, fun player hpe henc => ?_,
    fun player w h hpe hmc hob => ?_, fun player w h hpe hsp hmc hob => ?_,
    fun player w h hsig hfresh hpe hmc hob henc => ?_,
    fun player w h hsig hfresh hpe hsp hmc hob => ?_,
    fun player ms hsig hpe henc => ?_⟩
  · exact ⟨by simp [moveTo, hpe], by simp [spawn, hpe],
      by simp [clientThrowBall, hpe]⟩
  · simp [spawn, hpe, hsp]
  · simp [clientThrowBall, hpe, henc]
  · simp [moveTo, hpe, hmc, hob]
  · simp [spawn, hpe, hsp, hmc, hob]
  · have h0 : ovs.filter (fun en => en.1 ≠ nid) = ovs :=
      filter_ne_id ovs nid (fun en hen => by have := hfresh en hen; omega)
    simp [moveTo, hpe, hmc, hob, henc, worldSend, hsig, List.filter_cons, h0]
    intro a b hab
    have := hfresh (a, b) hab
    omega
  · have h0 : ovs.filter (fun en => en.1 ≠ nid) = ovs :=
      filter_ne_id ovs nid (fun en hen => by have := hfresh en hen; omega)
    have h1 : ovs.filter (fun en => en.1 ≠ nid + 1) = ovs :=
      filter_ne_id ovs (nid + 1) (fun en hen => by have := hfresh en hen; omega)
    have hne : (nid + 1 : Nat) ≠ nid := by omega
    simp [spawn, hpe, hsp, hmc, hob, worldSend, hsig, List.filter_cons,
      hne, h0, h1]
    intro a b hab
    have := hfresh (a, b) hab
    omega
  · simp [clientThrowBall, hpe, henc, worldSend, hsig]

/-- A client with no player entity bound. -/
def cNoPlayer : Client where
  entities := []
  obstruction := fun _ => false
  position := fun _ => none
  playerComp := fun _ => none
  encounterComp := fun _ => none
  ownedByComp := fun _ => none
  mapConfig := some (10, 10)
  playerEntity := none
  hasSigner := true

/-- C4 amended witness: with no player bound, `moveTo`, `spawn` and the
client `throwBall` reject immediately with `no player`, creating no
override and attempting no submission. -/
theorem precondition_paths_witness :
    moveTo cNoPlayer [] 0 (.ok ()) 0 0 =
      ⟨[], 0, false, none, cNoPlayer, .error .noPlayer⟩ ∧
    spawn cNoPlayer [] 0 (.ok ()) 0 0 =
      ⟨[], 0, false, none, cNoPlayer, .error .noPlayer⟩ ∧
    clientThrowBall cNoPlayer cNoPlayer (.ok ()) = (false, .error .noPlayer) :=
  (precondition_paths cNoPlayer cNoPlayer [] 0 (.ok ()) 0 0).1 rfl

/-- C6: a `moveTo` whose wrapped target cell is obstructed performs no
submission (`submitted = false`, no calldata), creates no override, and
returns the Replica Store view `c` unchanged, resolving silently with
`.ok ()`. -/
theorem moveTo_obstructed (c : Client) (ovs : Overrides) (nid : Nat)
    (so : Except ClientErr Unit) (x y : Int) (player : Nat) (w h : Int)
    (hpe : c.playerEntity = some player) (hmc : c.mapConfig = some (w, h))
    (hob : isObstructed c ovs (wrapPos w h x y).1 (wrapPos w h x y).2 = true) :
    moveTo c ovs nid so x y = ⟨ovs, nid, false, none, c, .ok ()⟩ := by
  simp [moveTo, hpe, hmc, hob]

/-- C6 witness: the obstructed move of `cObst` at (0, 0). -/
theorem moveTo_obstructed_witness :
    moveTo cObst [] 0 (.ok ()) 0 0 = ⟨[], 0, false, none, cObst, .ok ()⟩ :=
  moveTo_obstructed cObst [] 0 (.ok ()) 0 0 1 10 10 rfl rfl (by decide)

/-- C7: on a toroidal world of width W and height H (both positive),
`moveTo(W, 0)` is equivalent to `moveTo(0, 0)`: the targets wrap to the
same effective coordinates, so the obstruction and encounter checks, the
speculative override set, the submission decision, the Replica Store view
and the thrown/returned result coincide, and the authoritative position
resulting from the submitted calldata (via the spec-modelled ledger move)
is the same. -/
theorem moveTo_wrap_equiv (c : Client) (ovs : Overrides) (nid : Nat)
    (so : Except ClientErr Unit) (W H : Int) (p0 : Int × Int)
    (hmc : c.mapConfig = some (W, H)) (hW : 0 < W) (hH : 0 < H) :
    wrapPos W H W 0 = wrapPos W H 0 0 ∧
    (moveTo c ovs nid so W 0).overrides = (moveTo c ovs nid so 0 0).overrides ∧
    (moveTo c ovs nid so W 0).nextId = (moveTo c ovs nid so 0 0).nextId ∧
    (moveTo c ovs nid so W 0).submitted = (moveTo c ovs nid so 0 0).submitted ∧
    (moveTo c ovs nid so W 0).client = (moveTo c ovs nid so 0 0).client ∧
    (moveTo c ovs nid so W 0).result = (moveTo c ovs nid so 0 0).result ∧
    resultingPos W H (moveTo c ovs nid so W 0).calldata p0 =
      resultingPos W H (moveTo c ovs nid so 0 0).calldata p0 := by
  have h1 : (W + W).tmod W = 0 := by
    rw [Int.tmod_eq_emod (by omega) (by omega)]
    have hsum : W + W = W * 2 := by ring
    rw [hsum, Int.mul_emod_right]
  have h2 : (0 + W).tmod W = 0 := by
    rw [Int.tmod_eq_emod (by omega) (by omega)]
    simp [Int.emod_self]
  have hww : wrapPos W H W 0 = wrapPos W H 0 0 := by
    unfold wrapPos
    rw [h1, h2]
  refine ⟨hww, ?_⟩
  unfold moveTo
  cases hpe : c.playerEntity with
  | none => exact ⟨rfl, rfl, rfl, rfl, rfl, rfl⟩
  | some player =>
    simp only [hpe, hmc]
    rw [hww]
    by_cases hob :
        isObstructed c ovs (wrapPos W H 0 0).1 (wrapPos W H 0 0).2 = true
    · simp only [hob]
      exact ⟨rfl, rfl, rfl, rfl, rfl, rfl⟩
    · simp only [Bool.not_eq_true] at hob
      simp only [hob]
      by_cases henc : (c.encounterComp player).isSome = true
      · simp only [henc]
        exact ⟨rfl, rfl, rfl, rfl, rfl, rfl⟩
      · simp only [Bool.not_eq_true] at henc
        simp only [henc]
        refine ⟨rfl, rfl, rfl, rfl, rfl, ?_⟩
        by_cases hsig : c.hasSigner = true
        · simp [hsig, resultingPos, ledgerMove, hww]
        · simp only [Bool.not_eq_true] at hsig
          simp [hsig, resultingPos]

/-- C7 witness: on the 10×10 world of `cOpen`, `moveTo(10, 0)` and
`moveTo(0, 0)` coincide in every enumerated observable. -/
theorem moveTo_wrap_equiv_witness :
    wrapPos 10 10 10 0 = wrapPos 10 10 0 0 ∧
    (moveTo cOpen [] 0 (.ok ()) 10 0).overrides =
      (moveTo cOpen [] 0 (.ok ()) 0 0).overrides ∧
    (moveTo cOpen [] 0 (.ok ()) 10 0).nextId =
      (moveTo cOpen [] 0 (.ok ()) 0 0).nextId ∧
    (moveTo cOpen [] 0 (.ok ()) 10 0).submitted =
      (moveTo cOpen [] 0 (.ok ()) 0 0).submitted ∧
    (moveTo cOpen [] 0 (.ok ()) 10 0).client =
      (moveTo cOpen [] 0 (.ok ()) 0 0).client ∧
    (moveTo cOpen [] 0 (.ok ()) 10 0).result =
      (moveTo cOpen [] 0 (.ok ()) 0 0).result ∧
    resultingPos 10 10 (moveTo cOpen [] 0 (.ok ()) 10 0).calldata (1, 1) =
      resultingPos 10 10 (moveTo cOpen [] 0 (.ok ()) 0 0).calldata (1, 1) :=
  moveTo_wrap_equiv cOpen [] 0 (.ok ()) 10 10 (1, 1) rfl (by decide) (by decide)
